import Mathlib

/-!
Shallow embedding of the Handlips API server (src/app.js): an Express CRUD
backend over a relational store with text-to-speech synthesis and blob
storage adapters. Request bodies are modelled with Option fields (a missing
field is none), JS string truthiness as non-emptiness, numbers as rationals,
database tables as lists of row structures, and the external adapters as
boolean or Except-valued oracles. Each route handler becomes a pure function
from the request and the current state to an HTTP status, the new state, and
the list of external effects it performed, in order.
-/

namespace Handlips

/-- JS truthiness of an optional string field: falsy when missing or empty. -/
def truthyStr (s : Option String) : Bool :=
  match s with
  | none => false
  | some t => !t.isEmpty

/-- JS truthiness of an optional numeric field: falsy when missing or zero. -/
def truthyNum (q : Option ℚ) : Bool :=
  match q with
  | none => false
  | some x => !(x == 0)

/-- The public URL built by uploadToGCS for a bucket and object key. -/
def gcsPublicUrl (bucketName fileName : String) : String :=
  "https://storage.googleapis.com/" ++ bucketName ++ "/" ++ fileName

/-- Accumulator pass behind lastSegment: keeps the characters seen since the
most recent slash, mirroring audioUrl.split(\x22/\x22).pop() in the source. -/
def lastSegmentAux : List Char → List Char → List Char
  | [], acc => acc
  | c :: cs, acc => if c = '/' then lastSegmentAux cs [] else lastSegmentAux cs (acc ++ [c])

/-- Model of s.split(\x22/\x22).pop(): the substring after the last slash. -/
def lastSegment (s : String) : String :=
  String.mk (lastSegmentAux s.data [])

/-- Lowercase hexadecimal digit character for a value below 16. -/
def hexChar (n : Nat) : Char :=
  if n < 10 then Char.ofNat (48 + n) else Char.ofNat (97 + (n - 10))

/-- Two lowercase hex digits of one byte. -/
def byteHex (b : Nat) : List Char := [hexChar (b / 16 % 16), hexChar (b % 16)]

/-- Model of the uuid package v4 generator: sixteen random bytes rendered in
the 8-4-4-4-12 layout, with the version nibble forced to 4 and the variant
bits forced to 10. -/
def uuidv4 (bytes : Fin 16 → Nat) : String :=
  String.mk (List.flatten
    [byteHex (bytes 0), byteHex (bytes 1), byteHex (bytes 2), byteHex (bytes 3), ['-'],
     byteHex (bytes 4), byteHex (bytes 5), ['-'],
     byteHex (64 + bytes 6 % 16), byteHex (bytes 7), ['-'],
     byteHex (128 + bytes 8 % 64), byteHex (bytes 9), ['-'],
     byteHex (bytes 10), byteHex (bytes 11), byteHex (bytes 12),
     byteHex (bytes 13), byteHex (bytes 14), byteHex (bytes 15)])

/-- A persisted Soundboard row. -/
structure SoundboardRow where
  id : String
  title : String
  text : String
  audioUrl : String
  fileName : String
  createdByEmail : String
  createdAt : Nat
  deriving Repr, DecidableEq

/-- Body of POST /soundboards. -/
structure CreateSoundboardReq where
  title : Option String
  text : Option String
  email : Option String

/-- External effects of the soundboard creation handler, in order. -/
inductive SbEffect
  | synthCall (text : String)
  | uploadCall (fileName : String)
  | dbCreate (row : SoundboardRow)
  deriving Repr, DecidableEq

/-- Outcome of POST /soundboards. -/
inductive SbResponse
  | badRequest
  | created (row : SoundboardRow)
  | serverError
  deriving Repr, DecidableEq

/-- Handler of POST /soundboards: validate the three fields, synthesize
speech, upload the buffer under a fresh uuid key with suffix .mp3, persist
the row. The three Bool oracles say whether each external call succeeds; any
failure is caught and mapped to a 500. -/
def postSoundboards (bucket rowId : String) (bytes : Fin 16 → Nat) (now : Nat)
    (req : CreateSoundboardReq) (synthOk uploadOk dbOk : Bool) :
    SbResponse × List SbEffect :=
  if !truthyStr req.title || !truthyStr req.text || !truthyStr req.email then
    (.badRequest, [])
  else
    let text := req.text.getD ""
    let effs1 := [SbEffect.synthCall text]
    if !synthOk then (.serverError, effs1) else
    let fileName := uuidv4 bytes ++ ".mp3"
    let effs2 := effs1 ++ [SbEffect.uploadCall fileName]
    if !uploadOk then (.serverError, effs2) else
    let audioUrl := gcsPublicUrl bucket fileName
    let row : SoundboardRow :=
      { id := rowId, title := req.title.getD "", text := text,
        audioUrl := audioUrl, fileName := fileName,
        createdByEmail := req.email.getD "", createdAt := now }
    let effs3 := effs2 ++ [SbEffect.dbCreate row]
    if !dbOk then (.serverError, effs3) else
    (.created row, effs3)

-- History and Message models (routes POST /history/email and POST /history/:email)

/-- A History row: primary key email, plus id and title. -/
structure HistoryRow where
  email : String
  id : String
  title : String
  deriving Repr, DecidableEq

/-- A Message row as persisted by POST /history/:email. -/
structure MessageRow where
  message_id : String
  email : String
  message : String
  created_at : Nat
  is_speech_to_text : Bool
  deriving Repr, DecidableEq

/-- Handler of POST /history/email: 400 when email or title is falsy, 400
when a History row for the email already exists, else insert and 201. -/
def postHistoryEmail (db : List HistoryRow) (uuid : String)
    (email title : Option String) : Nat × List HistoryRow :=
  if !truthyStr email || !truthyStr title then (400, db)
  else
    let e := email.getD ""
    match db.find? (fun r => r.email == e) with
    | some _ => (400, db)
    | none => (201, db ++ [{ email := e, id := uuid, title := title.getD "" }])

/-- The Message row built by POST /history/:email from the request, a
generated uuid and the current time. -/
def mkMessageRow (email : String) (message : Option String) (stt : Option Bool)
    (uuid : String) (now : Nat) : MessageRow :=
  { message_id := uuid, email := email, message := message.getD "",
    created_at := now, is_speech_to_text := stt.getD false }

/-- Handler of POST /history/:email: 400 when message is falsy or the
speech flag is undefined, 404 when no History row matches the email, else
insert a Message with a generated id and the current time, and 201. -/
def postHistoryMessage (hist : List HistoryRow) (msgs : List MessageRow)
    (email : String) (message : Option String) (stt : Option Bool)
    (uuid : String) (now : Nat) : Nat × List MessageRow :=
  if !truthyStr message || stt.isNone then (400, msgs)
  else
    match hist.find? (fun r => r.email == email) with
    | none => (404, msgs)
    | some _ => (201, msgs ++ [mkMessageRow email message stt uuid now])

-- DELETE /soundboards/:id and GET /soundboards/:email

/-- Effects of DELETE /soundboards/:id, in order. The Bool on blobDelete
records whether the attempted storage delete succeeded; a failed attempt is
caught and only logged. -/
inductive DelEffect
  | blobDelete (key : String) (ok : Bool)
  | rowDelete (id : String)
  deriving Repr, DecidableEq

/-- Handler of DELETE /soundboards/:id: 404 when no row matches the id,
else a best-effort blob delete of the object named by the last segment of
audioUrl, then the row delete, then 200. -/
def deleteSoundboard (db : List SoundboardRow) (id : String) (blobOk : Bool) :
    Nat × List SoundboardRow × List DelEffect :=
  match db.find? (fun r => r.id == id) with
  | none => (404, db, [])
  | some row =>
      let key := lastSegment row.audioUrl
      (200, db.filter (fun r => !(r.id == id)),
        [DelEffect.blobDelete key blobOk, DelEffect.rowDelete id])

/-- Sequelize ORDER BY createdAt DESC, modelled as a stable merge sort. -/
def sortByCreatedAtDesc (rows : List SoundboardRow) : List SoundboardRow :=
  rows.mergeSort (fun a b => decide (b.createdAt ≤ a.createdAt))

/-- The fileExists flag attached to each listed row: the blob existence
check, with an adapter error swallowed into false. -/
def fileExistsFlag (check : String → Except Unit Bool) (key : String) : Bool :=
  match check key with
  | .ok b => b
  | .error _ => false

/-- Handler of GET /soundboards/:email: fetch the rows of the owner newest
first, answer 404 when there are none, else attach to each row the
existence flag of the object named by the last segment of audioUrl and
answer 200. -/
def getSoundboardsByEmail (db : List SoundboardRow) (email : String)
    (check : String → Except Unit Bool) : Nat × List (SoundboardRow × Bool) :=
  let rows := sortByCreatedAtDesc (db.filter (fun r => r.createdByEmail == email))
  if rows.length = 0 then (404, [])
  else (200, rows.map (fun r => (r, fileExistsFlag check (lastSegment r.audioUrl))))

-- POST /feedback

/-- A feedback row: comment text and numeric rating. -/
structure FeedbackRow where
  comment : String
  rating : ℚ
  deriving DecidableEq

/-- The feedback row inserted from a request body. -/
def mkFeedbackRow (comment : Option String) (rating : Option ℚ) : FeedbackRow :=
  { comment := comment.getD "", rating := rating.getD 0 }

/-- Handler of POST /feedback: 400 when comment or rating is falsy, 400
when rating is below 1 or above 4, else insert the row and 201. The range
test never checks that the rating is an integer. -/
def postFeedback (db : List FeedbackRow) (comment : Option String)
    (rating : Option ℚ) : Nat × List FeedbackRow :=
  if !truthyStr comment || !truthyNum rating then (400, db)
  else if rating.getD 0 < 1 ∨ 4 < rating.getD 0 then (400, db)
  else (201, db ++ [mkFeedbackRow comment rating])

-- GET /report

/-- A Report row. -/
structure ReportRow where
  id : String
  comment : String
  createdAt : Nat
  deriving DecidableEq

/-- Response payload of GET /report. -/
structure ReportPageResp where
  total : Nat
  currentPage : Nat
  totalPages : Nat
  rows : List ReportRow
  deriving DecidableEq

/-- Sequelize ORDER BY createdAt DESC for reports, as a stable merge sort. -/
def sortReportsDesc (rows : List ReportRow) : List ReportRow :=
  rows.mergeSort (fun a b => decide (b.createdAt ≤ a.createdAt))

/-- Handler of GET /report: the offset is (page - 1) * limit, the returned
rows are the slice of the sorted table at that offset of length at most
limit, total is the table row count, and totalPages is Math.ceil of
total / limit, written here as the usual natural ceiling division, proved
below equal to the exact rational ceiling. -/
def getReport (db : List ReportRow) (page limit : Nat) : ReportPageResp :=
  let offset := (page - 1) * limit
  { total := db.length, currentPage := page,
    totalPages := (db.length + limit - 1) / limit,
    rows := ((sortReportsDesc db).drop offset).take limit }

-- PUT /profile/:email

/-- A profile row. -/
structure ProfileRow where
  name : String
  email : String
  profile_picture_url : Option String
  deriving DecidableEq

/-- An uploaded multipart image file, reduced to its original name. -/
structure FileUpload where
  originalname : String
  deriving DecidableEq

/-- Effects of PUT /profile/:email, in order. -/
inductive ProfileEffect
  | upload (key : String)
  | dbUpdate (affected : Nat)
  deriving Repr, DecidableEq

/-- The storage key used by PUT /profile/:email: the upload time followed
by the original file name, under the profiles folder. -/
def profileKey (now : Nat) (f : FileUpload) : String :=
  "profiles/" ++ toString now ++ "-" ++ f.originalname

/-- Row change performed by the UPDATE query of PUT /profile/:email: the
name always, the picture URL only when a new image was uploaded. -/
def updateProfileRow (email newName : String) (url : Option String)
    (r : ProfileRow) : ProfileRow :=
  if r.email == email then
    match url with
    | some u => { r with name := newName, profile_picture_url := some u }
    | none => { r with name := newName }
  else r

/-- Handler of PUT /profile/:email: 400 when name is falsy; when an image
file is attached it is uploaded to blob storage first, under the
timestamped key; then the UPDATE query runs, and a zero affected-row count
is answered with 404, else 200. -/
def putProfile (db : List ProfileRow) (bucket email : String)
    (name : Option String) (file : Option FileUpload) (now : Nat) :
    Nat × List ProfileRow × List ProfileEffect :=
  if !truthyStr name then (400, db, [])
  else
    let url : Option String :=
      match file with
      | some f => some (gcsPublicUrl bucket (profileKey now f))
      | none => none
    let uploadEffs : List ProfileEffect :=
      match file with
      | some f => [ProfileEffect.upload (profileKey now f)]
      | none => []
    let affected := (db.filter (fun r => r.email == email)).length
    let newDb := db.map (updateProfileRow email (name.getD "") url)
    if affected = 0 then (404, newDb, uploadEffs ++ [ProfileEffect.dbUpdate affected])
    else (200, newDb, uploadEffs ++ [ProfileEffect.dbUpdate affected])

-- Concrete values used by the witnesses

/-- A concrete soundboard row used by witnesses. -/
def sbRow0 : SoundboardRow :=
  { id := "sb1", title := "t", text := "x",
    audioUrl := "https://storage.googleapis.com/bkt/f.mp3", fileName := "f.mp3",
    createdByEmail := "a@b.c", createdAt := 3 }

/-- A blob existence oracle that always errors. -/
def checkErr : String → Except Unit Bool := fun _ => Except.error ()

/-- A concrete 25-row report table. -/
def reportDb25 : List ReportRow :=
  (List.range 25).map (fun i => { id := toString i, comment := "c", createdAt := i })

end Handlips

namespace Handlips

-- Helper lemmas: lastSegment splits at the final slash, and a uuid file
-- name contains no slash

theorem lastSegmentAux_no_slash (l : List Char) :
    ∀ acc, (∀ c ∈ l, c ≠ '/') → lastSegmentAux l acc = acc ++ l := by
  induction l with
  | nil => intro acc _; simp [lastSegmentAux]
  | cons c cs ih =>
      intro acc h
      have hc : c ≠ '/' := h c (List.mem_cons_self c cs)
      simp only [lastSegmentAux, if_neg hc]
      rw [ih (acc ++ [c]) (fun d hd => h d (List.mem_cons_of_mem c hd))]
      simp

theorem lastSegmentAux_split (l₁ l₂ : List Char) :
    ∀ acc, lastSegmentAux (l₁ ++ '/' :: l₂) acc = lastSegmentAux l₂ [] := by
  induction l₁ with
  | nil => intro acc; simp [lastSegmentAux]
  | cons c cs ih =>
      intro acc
      by_cases hc : c = '/'
      · subst hc; simp only [List.cons_append, lastSegmentAux, if_pos rfl]; exact ih []
      · simp only [List.cons_append, lastSegmentAux, if_neg hc]; exact ih (acc ++ [c])

theorem lastSegment_of_append (pre fn : String) (h : ∀ c ∈ fn.data, c ≠ '/') :
    lastSegment (pre ++ "/" ++ fn) = fn := by
  have hdata : (pre ++ "/" ++ fn).data = pre.data ++ '/' :: fn.data := by
    simp [String.data_append]
  unfold lastSegment
  rw [hdata, lastSegmentAux_split, lastSegmentAux_no_slash fn.data [] h]
  rfl

theorem hexChar_lt16_ne_slash : ∀ n : Fin 16, hexChar n.val ≠ '/' := by decide

theorem mem_byteHex_ne_slash (b : Nat) (c : Char) (hc : c ∈ byteHex b) : c ≠ '/' := by
  have h1 : b / 16 % 16 < 16 := Nat.mod_lt _ (by norm_num)
  have h2 : b % 16 < 16 := Nat.mod_lt _ (by norm_num)
  simp only [byteHex, List.mem_cons, List.not_mem_nil, or_false] at hc
  rcases hc with h | h
  · rw [h]; exact hexChar_lt16_ne_slash ⟨_, h1⟩
  · rw [h]; exact hexChar_lt16_ne_slash ⟨_, h2⟩

theorem uuid_no_slash (bytes : Fin 16 → Nat) : ∀ c ∈ (uuidv4 bytes).data, c ≠ '/' := by
  intro c hc
  simp only [uuidv4, List.mem_flatten] at hc
  obtain ⟨l, hl, hcl⟩ := hc
  simp only [List.mem_cons, List.not_mem_nil, or_false] at hl
  rcases hl with rfl | rfl | rfl | rfl | rfl | rfl | rfl | rfl | rfl | rfl | rfl | rfl |
    rfl | rfl | rfl | rfl | rfl | rfl | rfl | rfl
  all_goals first
    | exact mem_byteHex_ne_slash _ _ hcl
    | (simp only [List.mem_cons, List.not_mem_nil, or_false] at hcl; rw [hcl]; decide)

theorem uuidFileName_no_slash (bytes : Fin 16 → Nat) :
    ∀ c ∈ (uuidv4 bytes ++ ".mp3").data, c ≠ '/' := by
  intro c hc
  rw [String.data_append] at hc
  rcases List.mem_append.mp hc with h | h
  · exact uuid_no_slash bytes c h
  · have hd : (".mp3" : String).data = ['.', 'm', 'p', '3'] := rfl
    rw [hd] at h
    simp only [List.mem_cons, List.not_mem_nil, or_false] at h
    rcases h with rfl | rfl | rfl | rfl <;> decide

/-- C1: a successfully created soundboard (all three fields truthy, all
external calls succeeding) is persisted with an audioUrl whose final path
segment equals its fileName field, and the effects are synthesis, then
upload under that fileName, then the database insert. -/
theorem soundboard_create_url_invariant (bucket rowId : String) (bytes : Fin 16 → Nat)
    (now : Nat) (req : CreateSoundboardReq)
    (h1 : truthyStr req.title = true) (h2 : truthyStr req.text = true)
    (h3 : truthyStr req.email = true) :
    ∃ row : SoundboardRow,
      postSoundboards bucket rowId bytes now req true true true =
        (SbResponse.created row,
         [SbEffect.synthCall (req.text.getD ""), SbEffect.uploadCall row.fileName,
          SbEffect.dbCreate row]) ∧
      lastSegment row.audioUrl = row.fileName := by
  refine
    ⟨{ id := rowId, title := req.title.getD "", text := req.text.getD "",
       audioUrl := gcsPublicUrl bucket (uuidv4 bytes ++ ".mp3"),
       fileName := uuidv4 bytes ++ ".mp3",
       createdByEmail := req.email.getD "", createdAt := now }, ?_, ?_⟩
  · simp [postSoundboards, h1, h2, h3]
  · exact lastSegment_of_append ("https://storage.googleapis.com/" ++ bucket)
      (uuidv4 bytes ++ ".mp3") (uuidFileName_no_slash bytes)

/-- Witness for C1 at a concrete request. -/
theorem soundboard_create_url_invariant_witness :
    truthyStr (some "hello") = true ∧
    ∃ row : SoundboardRow,
      postSoundboards "bkt" "id0" (fun _ => 0) 7
          ⟨some "hello", some "halo dunia", some "a@b.c"⟩ true true true =
        (SbResponse.created row,
         [SbEffect.synthCall "halo dunia", SbEffect.uploadCall row.fileName,
          SbEffect.dbCreate row]) ∧
      lastSegment row.audioUrl = row.fileName :=
  ⟨by decide,
   soundboard_create_url_invariant "bkt" "id0" (fun _ => 0) 7
     ⟨some "hello", some "halo dunia", some "a@b.c"⟩ (by decide) (by decide) (by decide)⟩

/-- C3: when title, text or email is missing or empty, POST /soundboards
answers 400 and performs no external effect at all, whatever the adapters
would have done. -/
theorem soundboard_create_validation (bucket rowId : String) (bytes : Fin 16 → Nat)
    (now : Nat) (req : CreateSoundboardReq) (synthOk uploadOk dbOk : Bool)
    (h : truthyStr req.title = false ∨ truthyStr req.text = false ∨
         truthyStr req.email = false) :
    postSoundboards bucket rowId bytes now req synthOk uploadOk dbOk =
      (SbResponse.badRequest, []) := by
  unfold postSoundboards
  rcases h with h | h | h <;> simp [h]

/-- Witness for C3 at a concrete request with a missing title. -/
theorem soundboard_create_validation_witness :
    truthyStr (none : Option String) = false ∧
    postSoundboards "bkt" "id0" (fun _ => 0) 7 ⟨none, some "x", some "e"⟩ true true true =
      (SbResponse.badRequest, []) :=
  ⟨by decide,
   soundboard_create_validation "bkt" "id0" (fun _ => 0) 7
     ⟨none, some "x", some "e"⟩ true true true (Or.inl (by decide))⟩

/-- C4: when the History table already holds exactly one row for an email,
any further POST /history/email for that same email answers 400 and leaves
the table unchanged, still with exactly one row for that email. -/
theorem history_duplicate_rejected (db : List HistoryRow) (uuid e : String)
    (title : Option String)
    (h : (db.filter (fun r => r.email == e)).length = 1) :
    postHistoryEmail db uuid (some e) title = (400, db) ∧
    (((postHistoryEmail db uuid (some e) title).2.filter
        (fun r => r.email == e)).length = 1) := by
  have h0 : 0 < (db.filter (fun r => r.email == e)).length := by omega
  obtain ⟨r, hr⟩ := List.exists_mem_of_length_pos h0
  have hrf := List.mem_filter.mp hr
  have heq : postHistoryEmail db uuid (some e) title = (400, db) := by
    unfold postHistoryEmail
    by_cases he : truthyStr (some e)
    · by_cases ht : truthyStr title
      · have hfind : (db.find? (fun r => r.email == e)).isSome :=
          List.find?_isSome.mpr ⟨r, hrf.1, hrf.2⟩
        obtain ⟨r0, hr0⟩ := Option.isSome_iff_exists.mp hfind
        simp [he, ht, hr0]
      · simp [ht]
    · simp [he]
  refine ⟨heq, ?_⟩
  rw [heq]
  exact h

/-- Witness for C4 at a concrete one-row table. -/
theorem history_duplicate_rejected_witness :
    (([⟨"a@b.c", "h1", "t"⟩] : List HistoryRow).filter
        (fun r => r.email == "a@b.c")).length = 1 ∧
    postHistoryEmail [⟨"a@b.c", "h1", "t"⟩] "u2" (some "a@b.c") (some "t2") =
      (400, [⟨"a@b.c", "h1", "t"⟩]) :=
  ⟨by decide,
   (history_duplicate_rejected [⟨"a@b.c", "h1", "t"⟩] "u2" "a@b.c" (some "t2")
      (by decide)).1⟩

/-- C5 counterexample: a POST /history/:email request for an email with no
History row but with a missing message body answers 400, not 404, because
the field validation runs before the History lookup. -/
theorem message_no_history_counterexample :
    ([] : List HistoryRow).find? (fun r => r.email == "a@b.c") = none ∧
    (postHistoryMessage [] [] "a@b.c" none (some true) "u1" 0).1 ≠ 404 ∧
    postHistoryMessage [] [] "a@b.c" none (some true) "u1" 0 = (400, []) := by
  decide

/-- C5 (amended): for a POST /history/:email request whose message and
speech flag are both present, the handler answers 404 and creates no
Message row when no History row matches the email, and otherwise appends
exactly one Message carrying the generated identifier and the current
timestamp, answering 201. -/
theorem message_requires_history (hist : List HistoryRow) (msgs : List MessageRow)
    (email : String) (message : Option String) (stt : Option Bool)
    (uuid : String) (now : Nat)
    (hm : truthyStr message = true) (hs : stt.isNone = false) :
    (hist.find? (fun r => r.email == email) = none →
      postHistoryMessage hist msgs email message stt uuid now = (404, msgs)) ∧
    (∀ r0, hist.find? (fun r => r.email == email) = some r0 →
      postHistoryMessage hist msgs email message stt uuid now =
        (201, msgs ++ [mkMessageRow email message stt uuid now])) := by
  constructor
  · intro hn
    unfold postHistoryMessage
    simp [hm, hs, hn]
  · intro r0 hr0
    unfold postHistoryMessage
    simp [hm, hs, hr0]

/-- Witness for C5 (amended) at a concrete table holding the History row. -/
theorem message_requires_history_witness :
    truthyStr (some "hi") = true ∧
    postHistoryMessage [⟨"a@b.c", "h1", "t"⟩] [] "a@b.c" (some "hi") (some false) "m1" 5 =
      (201, [mkMessageRow "a@b.c" (some "hi") (some false) "m1" 5]) :=
  ⟨by decide,
   (message_requires_history [⟨"a@b.c", "h1", "t"⟩] [] "a@b.c" (some "hi")
      (some false) "m1" 5 (by decide) (by decide)).2 ⟨"a@b.c", "h1", "t"⟩ (by decide)⟩

/-- C6: a DELETE /soundboards/:id whose id matches no row answers 404,
attempts no blob delete and removes no row, whatever the blob adapter
would have done. -/
theorem delete_soundboard_not_found (db : List SoundboardRow) (id : String)
    (blobOk : Bool) (h : db.find? (fun r => r.id == id) = none) :
    deleteSoundboard db id blobOk = (404, db, []) := by
  unfold deleteSoundboard
  simp [h]

/-- Witness for C6 at a concrete table without the requested id. -/
theorem delete_soundboard_not_found_witness :
    ([sbRow0].find? (fun r => r.id == "nope") = none) ∧
    deleteSoundboard [sbRow0] "nope" true = (404, [sbRow0], []) :=
  ⟨by decide, delete_soundboard_not_found [sbRow0] "nope" true (by decide)⟩

/-- C7: when a row matches the id, the blob delete is attempted first and
is best-effort: for either outcome of the blob delete, including failure,
the row delete still runs and the handler answers 200. -/
theorem delete_soundboard_best_effort (db : List SoundboardRow) (id : String)
    (row : SoundboardRow) (h : db.find? (fun r => r.id == id) = some row) :
    ∀ blobOk : Bool,
      deleteSoundboard db id blobOk =
        (200, db.filter (fun r => !(r.id == id)),
         [DelEffect.blobDelete (lastSegment row.audioUrl) blobOk,
          DelEffect.rowDelete id]) := by
  intro blobOk
  unfold deleteSoundboard
  simp [h]

/-- Witness for C7 with a failing blob delete. -/
theorem delete_soundboard_best_effort_witness :
    ([sbRow0].find? (fun r => r.id == "sb1") = some sbRow0) ∧
    deleteSoundboard [sbRow0] "sb1" false =
      (200, [], [DelEffect.blobDelete "f.mp3" false, DelEffect.rowDelete "sb1"]) := by
  have h := delete_soundboard_best_effort [sbRow0] "sb1" sbRow0 (by decide) false
  refine ⟨by decide, ?_⟩
  rw [h]
  decide

/-- The sorted owner rows are pairwise in weakly decreasing creation order. -/
theorem sortByCreatedAtDesc_pairwise (l : List SoundboardRow) :
    (sortByCreatedAtDesc l).Pairwise (fun a b => b.createdAt ≤ a.createdAt) := by
  have hs := @List.sorted_mergeSort SoundboardRow
    (fun a b : SoundboardRow => decide (b.createdAt ≤ a.createdAt))
    (fun a b c hab hbc => by
      simp only [decide_eq_true_eq] at *
      omega)
    (fun a b => by
      simp only [Bool.or_eq_true, decide_eq_true_eq]
      exact Nat.le_total _ _)
    l
  exact hs.imp (fun h => by simpa using h)

/-- C8: listing by owner answers 404 with no data when the owner has no
rows; otherwise it answers 200 with the rows in weakly newest-first order
of creation time, and every row whose blob existence check errors carries
fileExists = false. -/
theorem list_soundboards_by_owner (db : List SoundboardRow) (email : String)
    (check : String → Except Unit Bool) :
    (db.filter (fun r => r.createdByEmail == email) = [] →
      getSoundboardsByEmail db email check = (404, [])) ∧
    (db.filter (fun r => r.createdByEmail == email) ≠ [] →
      (getSoundboardsByEmail db email check).1 = 200 ∧
      (getSoundboardsByEmail db email check).2.Pairwise
        (fun p q => q.1.createdAt ≤ p.1.createdAt) ∧
      ∀ p ∈ (getSoundboardsByEmail db email check).2,
        check (lastSegment p.1.audioUrl) = Except.error () → p.2 = false) := by
  constructor
  · intro h
    unfold getSoundboardsByEmail sortByCreatedAtDesc
    simp [h]
  · intro h
    have hlen : ¬ (sortByCreatedAtDesc
        (db.filter (fun r => r.createdByEmail == email))).length = 0 := by
      unfold sortByCreatedAtDesc
      rw [List.length_mergeSort]
      simpa [List.length_eq_zero] using h
    refine ⟨?_, ?_, ?_⟩
    · unfold getSoundboardsByEmail
      simp only [if_neg hlen]
    · unfold getSoundboardsByEmail
      simp only [if_neg hlen]
      rw [List.pairwise_map]
      exact sortByCreatedAtDesc_pairwise _
    · unfold getSoundboardsByEmail
      simp only [if_neg hlen]
      intro p hp herr
      obtain ⟨r, _, rfl⟩ := List.mem_map.mp hp
      simpa [fileExistsFlag] using congrArg (fun x =>
        match x with
        | Except.ok b => b
        | Except.error _ => false) herr

/-- Witness for C8 at a one-row owner and an erroring existence oracle. -/
theorem list_soundboards_by_owner_witness :
    ([sbRow0].filter (fun r => r.createdByEmail == "a@b.c") ≠ []) ∧
    (getSoundboardsByEmail [sbRow0] "a@b.c" checkErr).1 = 200 :=
  ⟨by decide, ((list_soundboards_by_owner [sbRow0] "a@b.c" checkErr).2 (by decide)).1⟩

/-- Natural ceiling division agrees with the exact rational ceiling. -/
theorem natCeilDiv_eq_ceil (c l : Nat) (hl : 0 < l) :
    (c + l - 1) / l = ⌈(c : ℚ) / (l : ℚ)⌉₊ := by
  rcases Nat.eq_zero_or_pos c with hc | hc
  · subst hc
    rw [Nat.cast_zero, zero_div, Nat.ceil_zero]
    exact Nat.div_eq_of_lt (by omega)
  · have hl0 : (0 : ℚ) < (l : ℚ) := by exact_mod_cast hl
    set n := (c + l - 1) / l with hn
    have hmod := Nat.div_add_mod (c + l - 1) l
    have hrlt : (c + l - 1) % l < l := Nat.mod_lt _ hl
    have hn1 : 1 ≤ n := by
      rw [hn, Nat.one_le_div_iff hl]
      omega
    set P := l * n with hPdef
    have hsub : (n - 1) * l = P - l := by
      rw [hPdef, Nat.sub_mul, one_mul, Nat.mul_comm]
    have hcle : c ≤ n * l := by
      rw [Nat.mul_comm]
      omega
    have hlt : (n - 1) * l < c := by
      rw [hsub]
      omega
    symm
    rw [Nat.ceil_eq_iff (by omega)]
    constructor
    · rw [lt_div_iff₀ hl0]
      exact_mod_cast hlt
    · rw [div_le_iff₀ hl0]
      exact_mod_cast hcle

/-- C9: for a positive page and limit, GET /report reports a totalPages
equal to the exact ceiling of the row count divided by the limit, returns
the slice of the newest-first table starting at offset (page - 1) * limit,
and returns min limit (count - offset) rows; at 25 rows, limit 10, page 1
this gives 10 rows and 3 total pages, as the witness instantiates. -/
theorem report_pagination (db : List ReportRow) (page limit : Nat)
    (hp : 1 ≤ page) (hl : 0 < limit) :
    (getReport db page limit).totalPages = ⌈(db.length : ℚ) / (limit : ℚ)⌉₊ ∧
    (getReport db page limit).totalPages = (db.length + limit - 1) / limit ∧
    (getReport db page limit).rows =
      ((sortReportsDesc db).drop ((page - 1) * limit)).take limit ∧
    (getReport db page limit).rows.length =
      min limit (db.length - (page - 1) * limit) := by
  refine ⟨natCeilDiv_eq_ceil db.length limit hl, rfl, rfl, ?_⟩
  simp [getReport, sortReportsDesc, List.length_take, List.length_drop,
    List.length_mergeSort]

/-- Witness for C9: 25 rows, limit 10, page 1 give 10 rows and 3 pages. -/
theorem report_pagination_witness :
    1 ≤ 1 ∧ 0 < 10 ∧ (getReport reportDb25 1 10).rows.length = 10 ∧
    (getReport reportDb25 1 10).totalPages = 3 := by
  have h := report_pagination reportDb25 1 10 (by decide) (by decide)
  refine ⟨by decide, by decide, ?_, ?_⟩
  · rw [h.2.2.2]
    decide
  · rw [h.2.1]
    decide

/-- C2 counterexample: the rating 5/2 is not an integer, yet POST /feedback
answers 201 and inserts the row, so the integrality part of the claim fails
on the code. -/
theorem feedback_noninteger_accepted :
    (postFeedback [] (some "ok") (some (5/2))).1 = 201 ∧
    (postFeedback [] (some "ok") (some (5/2))).2 =
      [mkFeedbackRow (some "ok") (some (5/2))] ∧
    ∀ n : ℤ, ((5 : ℚ)/2) ≠ (n : ℚ) := by
  have hok : ("ok" : String).isEmpty = false := rfl
  have hpf : postFeedback [] (some "ok") (some (5/2)) =
      (201, [mkFeedbackRow (some "ok") (some (5/2))]) := by
    norm_num [postFeedback, truthyStr, truthyNum, hok]
  refine ⟨by rw [hpf], by rw [hpf], ?_⟩
  intro n h
  rw [div_eq_iff (by norm_num : (2 : ℚ) ≠ 0)] at h
  have h5 : (5 : ℤ) = n * 2 := by exact_mod_cast h
  omega

/-- C2 (amended): POST /feedback answers 201 exactly when the comment is
present and non-empty and the rating is a number q with 1 ≤ q ≤ 4, integer
or not; on 201 exactly the one row is appended, on every other outcome the
status is 400 and the table is unchanged. -/
theorem feedback_accepts_iff (db : List FeedbackRow) (comment : Option String)
    (rating : Option ℚ) :
    ((postFeedback db comment rating).1 = 201 ↔
      (truthyStr comment = true ∧ ∃ q : ℚ, rating = some q ∧ 1 ≤ q ∧ q ≤ 4)) ∧
    ((postFeedback db comment rating).1 = 201 →
      (postFeedback db comment rating).2 = db ++ [mkFeedbackRow comment rating]) ∧
    ((postFeedback db comment rating).1 ≠ 201 →
      (postFeedback db comment rating).1 = 400 ∧
      (postFeedback db comment rating).2 = db) := by
  by_cases hc : truthyStr comment
  · rcases rating with _ | q
    · simp [postFeedback, truthyNum, hc]
    · by_cases h0 : q = 0
      · subst h0
        simp only [postFeedback, truthyNum, hc]
        norm_num
      · by_cases hrange : q < 1 ∨ 4 < q
        · simp only [postFeedback, truthyNum, hc]
          simp [h0, hrange]
          intro h1
          cases hrange with
          | inl h => linarith
          | inr h => exact h
        · push_neg at hrange
          simp only [postFeedback, truthyNum, hc]
          simp [h0, not_or.mpr ⟨not_lt.mpr hrange.1, not_lt.mpr hrange.2⟩]
          exact ⟨hrange.1, hrange.2⟩
  · simp [postFeedback, hc]

/-- Witness for C2 (amended): rating 3 with a non-empty comment is
accepted and the row is inserted. -/
theorem feedback_accepts_iff_witness :
    (postFeedback [] (some "ok") (some 3)).1 = 201 ∧
    (postFeedback [] (some "ok") (some 3)).2 = [mkFeedbackRow (some "ok") (some 3)] := by
  have h := feedback_accepts_iff [] (some "ok") (some 3)
  have h201 : (postFeedback [] (some "ok") (some 3)).1 = 201 :=
    h.1.mpr ⟨by decide, 3, rfl, by norm_num, by norm_num⟩
  exact ⟨h201, by simpa using h.2.1 h201⟩

/-- C10: a PUT /profile/:email carrying a name and an image file, for an
email matching no profile row, still uploads the image to blob storage
under the timestamped key before the affected-row check, and then answers
404: the blob store is modified on this error path. -/
theorem profile_update_uploads_before_not_found (db : List ProfileRow)
    (bucket email : String) (name : Option String) (f : FileUpload) (now : Nat)
    (hn : truthyStr name = true)
    (h404 : db.filter (fun r => r.email == email) = []) :
    putProfile db bucket email name (some f) now =
      (404,
       db.map (updateProfileRow email (name.getD "")
         (some (gcsPublicUrl bucket (profileKey now f)))),
       [ProfileEffect.upload (profileKey now f), ProfileEffect.dbUpdate 0]) := by
  unfold putProfile
  simp [hn, h404]

/-- Witness for C10 on an empty profile table. -/
theorem profile_update_uploads_before_not_found_witness :
    truthyStr (some "Ana") = true ∧
    putProfile [] "bkt" "x@y.z" (some "Ana") (some ⟨"me.png"⟩) 99 =
      (404, [], [ProfileEffect.upload "profiles/99-me.png",
                 ProfileEffect.dbUpdate 0]) := by
  have h := profile_update_uploads_before_not_found [] "bkt" "x@y.z" (some "Ana")
    ⟨"me.png"⟩ 99 (by decide) (by decide)
  refine ⟨by decide, ?_⟩
  rw [h]
  rfl

end Handlips
